import Mathlib

/-!
Verification of the order-placement workflow of the `aiiobackend` Go
repository (packages `internal/user/domain`, `internal/product/domain`,
`internal/order/domain` and `internal/order/app/command`).

Go `int`/`int64` values are modelled as `Int`, with Go's wrapping
64-bit two's-complement arithmetic made explicit where the code computes
(`wrap64` at the subtraction in `Reserve`); comparisons and plain data
fields involve no arithmetic and need no wrapping.  Go errors are
modelled as `String` messages carried by `Except`.  The repository
collaborators (`UserRepository`, `ProductRepository`, `OrderRepository`)
are modelled as an environment of response functions, and `Handle`
additionally returns the ordered trace of collaborator calls it makes,
so that claims about which writes happen (and with which arguments) can
be stated.
-/

namespace AiioBackend

/-- `internal/user/domain` : the `User` entity (`ID`, `Active`, `Email`). -/
structure User where
  id : Int
  active : Bool
  email : String
deriving Repr, DecidableEq

/-- `(u *User) Activate()` sets `Active` to true. -/
def User.Activate (u : User) : User :=
  { u with active := true }

/-- The Go zero value of `User`. -/
def User.zeroValue : User :=
  { id := 0, active := false, email := "" }

/-- `internal/product/domain` : the `Product` entity (`ID`, `Name`, `Stock`). -/
structure Product where
  id : Int
  name : String
  stock : Int
deriving Repr, DecidableEq

/-- The Go zero value of `Product`. -/
def Product.zeroValue : Product :=
  { id := 0, name := "", stock := 0 }

/-- Go's `int` is 64 bits here and its signed arithmetic wraps around
(two's complement): `wrap64 x` is the value of the `int64` holding `x`,
i.e. the representative of `x` modulo `2 ^ 64` lying in
`[-2 ^ 63, 2 ^ 63)`. -/
def wrap64 (x : Int) : Int :=
  (x + 2 ^ 63) % 2 ^ 64 - 2 ^ 63

/-- `(p *Product) Reserve(qty int) error`:
if `p.Stock < qty` it returns the error "insufficient stock";
otherwise it does `p.Stock -= qty` (wrapping 64-bit subtraction) and
returns nil.  The in-place mutation is modelled by returning the
updated product. -/
def Product.Reserve (p : Product) (qty : Int) : Except String Product :=
  if p.stock < qty then Except.error "insufficient stock"
  else Except.ok { p with stock := wrap64 (p.stock - qty) }

/-- `internal/order/domain` : the `Order` entity.  The gorm association
fields `User` and `Product` are part of the struct and are included. -/
structure Order where
  id : Int
  userID : Int
  user : User
  productID : Int
  product : Product
  quantity : Int
  status : String
deriving Repr, DecidableEq

/-- `NewOrder(userID, productID int64, quantity int) *Order`: a fresh
order literal with only `UserID`, `ProductID`, `Quantity` and
`Status: "PENDING"` set; every other field keeps its zero value. -/
def NewOrder (userID productID : Int) (quantity : Int) : Order :=
  { id := 0
    userID := userID
    user := User.zeroValue
    productID := productID
    product := Product.zeroValue
    quantity := quantity
    status := "PENDING" }

/-- `(o *Order) Confirm()` sets `Status` to "CONFIRMED". -/
def Order.Confirm (o : Order) : Order :=
  { o with status := "CONFIRMED" }

/-- `PlaceOrderCommand` from `internal/order/app/command/order_place.go`. -/
structure PlaceOrderCommand where
  userID : Int
  productID : Int
  quantity : Int
deriving Repr, DecidableEq

/-- One observable collaborator call made by `Handle`, with its argument. -/
inductive Effect where
  | getUserCall (id : Int)
  | getProductCall (id : Int)
  | updateStockCall (p : Product)
  | saveOrderCall (o : Order)
deriving Repr, DecidableEq

/-- The behaviour of the three repository collaborators wired into a
`PlaceOrderHandler`: each field gives the response of the corresponding
interface method to an argument. -/
structure Env where
  getUser : Int → Except String User
  getProduct : Int → Except String Product
  updateStock : Product → Except String Unit
  saveOrder : Order → Except String Unit

/-- `(h *PlaceOrderHandler) Handle(ctx, cmd) error`, translated line by
line from `order_place.go`; the second component is the ordered list of
collaborator calls performed.

1. `u, err := h.UserRepo.GetByID(ctx, cmd.UserID)`; on error return
   `errors.New("user not found")`.
2. `p, err := h.ProductRepo.GetByID(ctx, cmd.ProductID)`; on error
   return `errors.New("product not found")`.
3. `p.Reserve(cmd.Quantity)`; on error return that error.
4. `o := orderDomain.NewOrder(u.ID, p.ID, cmd.Quantity); o.Confirm()`.
5. `h.ProductRepo.UpdateStock(ctx, p)` with the mutated `p`; on error
   return that error.
6. `return h.OrderRepo.Save(ctx, o)`. -/
def Handle (env : Env) (cmd : PlaceOrderCommand) :
    Except String Unit × List Effect :=
  match env.getUser cmd.userID with
  | Except.error _ => (Except.error "user not found", [Effect.getUserCall cmd.userID])
  | Except.ok u =>
    match env.getProduct cmd.productID with
    | Except.error _ =>
        (Except.error "product not found",
         [Effect.getUserCall cmd.userID, Effect.getProductCall cmd.productID])
    | Except.ok p =>
      match p.Reserve cmd.quantity with
      | Except.error e =>
          (Except.error e,
           [Effect.getUserCall cmd.userID, Effect.getProductCall cmd.productID])
      | Except.ok p2 =>
        let o := Order.Confirm (NewOrder u.id p.id cmd.quantity)
        match env.updateStock p2 with
        | Except.error e =>
            (Except.error e,
             [Effect.getUserCall cmd.userID, Effect.getProductCall cmd.productID,
              Effect.updateStockCall p2])
        | Except.ok _ =>
          match env.saveOrder o with
          | Except.error e =>
              (Except.error e,
               [Effect.getUserCall cmd.userID, Effect.getProductCall cmd.productID,
                Effect.updateStockCall p2, Effect.saveOrderCall o])
          | Except.ok _ =>
              (Except.ok (),
               [Effect.getUserCall cmd.userID, Effect.getProductCall cmd.productID,
                Effect.updateStockCall p2, Effect.saveOrderCall o])

/-- The products passed to `ProductRepo.UpdateStock` in a trace. -/
def updatedProducts (t : List Effect) : List Product :=
  t.filterMap fun e =>
    match e with
    | Effect.updateStockCall p => some p
    | _ => none

/-- The orders passed to `OrderRepo.Save` in a trace. -/
def savedOrders (t : List Effect) : List Order :=
  t.filterMap fun e =>
    match e with
    | Effect.saveOrderCall o => some o
    | _ => none

/-- The stock field after a `Reserve` call (unchanged when it fails). -/
def stockAfterReserve (p : Product) (qty : Int) : Int :=
  match p.Reserve qty with
  | Except.ok p2 => p2.stock
  | Except.error _ => p.stock

/-- `n` consecutive calls of `Confirm` on an order. -/
def confirmN : Nat → Order → Order
  | 0, o => o
  | n + 1, o => Order.Confirm (confirmN n o)

lemma confirm_confirm (o : Order) :
    Order.Confirm (Order.Confirm o) = Order.Confirm o := rfl

lemma confirm_of_confirmed (o : Order) (h : o.status = "CONFIRMED") :
    Order.Confirm o = o := by
  cases o
  simp only [Order.Confirm]
  simp at h
  simp [h]

lemma mem_savedOrders {o : Order} {t : List Effect} :
    o ∈ savedOrders t ↔ Effect.saveOrderCall o ∈ t := by
  simp only [savedOrders, List.mem_filterMap]
  constructor
  · rintro ⟨a, ha, hfa⟩
    cases a <;> simp at hfa
    rwa [hfa] at ha
  · intro h
    exact ⟨Effect.saveOrderCall o, h, rfl⟩

lemma mem_updatedProducts {p : Product} {t : List Effect} :
    p ∈ updatedProducts t ↔ Effect.updateStockCall p ∈ t := by
  simp only [updatedProducts, List.mem_filterMap]
  constructor
  · rintro ⟨a, ha, hfa⟩
    cases a <;> simp at hfa
    rwa [hfa] at ha
  · intro h
    exact ⟨Effect.updateStockCall p, h, rfl⟩

/-- If an `UpdateStock` call with argument `p2` appears in the trace of
`Handle`, then `p2` is the product fetched for `cmd.productID` after a
successful `Reserve cmd.quantity`. -/
lemma updateStock_in_trace (env : Env) (cmd : PlaceOrderCommand) (p2 : Product)
    (hmem : Effect.updateStockCall p2 ∈ (Handle env cmd).2) :
    ∃ p, env.getProduct cmd.productID = Except.ok p ∧
      p.Reserve cmd.quantity = Except.ok p2 := by
  unfold Handle at hmem
  cases hgu : env.getUser cmd.userID with
  | error e => simp only [hgu] at hmem; simp at hmem
  | ok u =>
    simp only [hgu] at hmem
    cases hgp : env.getProduct cmd.productID with
    | error e => simp only [hgp] at hmem; simp at hmem
    | ok p =>
      simp only [hgp] at hmem
      cases hr : p.Reserve cmd.quantity with
      | error e => simp only [hr] at hmem; simp at hmem
      | ok pr =>
        simp only [hr] at hmem
        refine ⟨p, rfl, ?_⟩
        cases hus : env.updateStock pr with
        | error e =>
          simp only [hus] at hmem
          simp at hmem
          rw [hmem]
          exact hr
        | ok v =>
          simp only [hus] at hmem
          cases hso : env.saveOrder (Order.Confirm (NewOrder u.id p.id cmd.quantity)) with
          | error e =>
            simp only [hso] at hmem
            simp at hmem
            rw [hmem]
            exact hr
          | ok w =>
            simp only [hso] at hmem
            simp at hmem
            rw [hmem]
            exact hr

/-- If a `Save` call with argument `o` appears in the trace of `Handle`,
then `o` is the confirmed order built from the fetched user and product. -/
lemma saveOrder_in_trace (env : Env) (cmd : PlaceOrderCommand) (o : Order)
    (hmem : Effect.saveOrderCall o ∈ (Handle env cmd).2) :
    ∃ u p, env.getUser cmd.userID = Except.ok u ∧
      env.getProduct cmd.productID = Except.ok p ∧
      o = Order.Confirm (NewOrder u.id p.id cmd.quantity) := by
  unfold Handle at hmem
  cases hgu : env.getUser cmd.userID with
  | error e => simp only [hgu] at hmem; simp at hmem
  | ok u =>
    simp only [hgu] at hmem
    cases hgp : env.getProduct cmd.productID with
    | error e => simp only [hgp] at hmem; simp at hmem
    | ok p =>
      simp only [hgp] at hmem
      cases hr : p.Reserve cmd.quantity with
      | error e => simp only [hr] at hmem; simp at hmem
      | ok pr =>
        simp only [hr] at hmem
        refine ⟨u, p, rfl, rfl, ?_⟩
        cases hus : env.updateStock pr with
        | error e => simp only [hus] at hmem; simp at hmem
        | ok v =>
          simp only [hus] at hmem
          cases hso : env.saveOrder (Order.Confirm (NewOrder u.id p.id cmd.quantity)) with
          | error e =>
            simp only [hso] at hmem
            simp at hmem
            exact hmem
          | ok w =>
            simp only [hso] at hmem
            simp at hmem
            exact hmem

lemma wrap64_eq_self {x : Int} (h1 : -(2 ^ 63) ≤ x) (h2 : x < 2 ^ 63) :
    wrap64 x = x := by
  unfold wrap64
  omega

lemma reserve_ok_of_le {p : Product} {qty : Int} (h : qty ≤ p.stock) :
    p.Reserve qty = Except.ok { p with stock := wrap64 (p.stock - qty) } := by
  simp [Product.Reserve, not_lt.mpr h]

/-- When the 64-bit subtraction does not overflow, `Reserve` decrements
by exactly `qty`.  (With `qty ≤ stock` the difference is non-negative,
so only the upper bound is a real condition.) -/
lemma reserve_ok_exact {p : Product} {qty : Int} (h : qty ≤ p.stock)
    (hnof : p.stock - qty < 2 ^ 63) :
    p.Reserve qty = Except.ok { p with stock := p.stock - qty } := by
  rw [reserve_ok_of_le h, wrap64_eq_self (by omega) hnof]

lemma reserve_error_of_lt {p : Product} {qty : Int} (h : p.stock < qty) :
    p.Reserve qty = Except.error "insufficient stock" := by
  simp [Product.Reserve, h]

/-- A concrete environment: user 7 and product 1 (stock 5) exist, both
write collaborators succeed. -/
def envW : Env :=
  { getUser := fun i =>
      if i = 7 then Except.ok ⟨7, true, "u@x"⟩ else Except.error "record not found"
    getProduct := fun i =>
      if i = 1 then Except.ok ⟨1, "widget", 5⟩ else Except.error "record not found"
    updateStock := fun _ => Except.ok ()
    saveOrder := fun _ => Except.ok () }

/-- Like `envW` but the order repository's `Save` always fails. -/
def envSaveFailW : Env :=
  { envW with saveOrder := fun _ => Except.error "db down" }

/-- Like `envW` but product 1 has the maximal `int64` stock
`2 ^ 63 - 1`, an input at which the wrapping subtraction overflows
for negative quantities. -/
def envOverflowW : Env :=
  { envW with getProduct := fun i =>
      if i = 1 then Except.ok ⟨1, "big", 2 ^ 63 - 1⟩ else Except.error "record not found" }

/-- Like `envOverflowW` but the order repository's `Save` always fails. -/
def envOverflowSaveFailW : Env :=
  { envOverflowW with saveOrder := fun _ => Except.error "db down" }

/-- Counterexample to C3 as stated: at the valid `int64` input
stock = `2 ^ 63 - 1`, quantity = `-1` (so stock ≥ quantity), `Reserve`
succeeds but the wrapping Go subtraction stores `-2 ^ 63`, not
stock − quantity. -/
theorem Reserve_exact_decrement_cex :
    stockAfterReserve ⟨1, "big", 2 ^ 63 - 1⟩ (-1) = -(2 ^ 63) ∧
    Product.Reserve ⟨1, "big", 2 ^ 63 - 1⟩ (-1) =
      Except.ok ⟨1, "big", -(2 ^ 63)⟩ ∧
    stockAfterReserve ⟨1, "big", 2 ^ 63 - 1⟩ (-1) ≠ (2 ^ 63 - 1) - (-1) := by
  exact ⟨by decide, rfl, by decide⟩

/-- C3 (amended): when `stock >= quantity`, `Reserve(quantity)` succeeds
and sets the stock field to the wrapped 64-bit difference
`stock - quantity`, changing no other field — an exact decrement by
`quantity` whenever that difference fits in `int64`; when
`stock < quantity` it fails with the "insufficient stock" error,
leaving the product unmodified. -/
theorem Reserve_decrements_or_insufficient (p : Product) (qty : Int) :
    (qty ≤ p.stock →
      p.Reserve qty = Except.ok { p with stock := wrap64 (p.stock - qty) }) ∧
    (qty ≤ p.stock → p.stock - qty < 2 ^ 63 →
      p.Reserve qty = Except.ok { p with stock := p.stock - qty }) ∧
    (p.stock < qty →
      p.Reserve qty = Except.error "insufficient stock") :=
  ⟨fun h => reserve_ok_of_le h,
   fun h hnof => reserve_ok_exact h hnof,
   fun h => reserve_error_of_lt h⟩

/-- Witness for C3 at a concrete product with stock 5, quantities 3 and 9. -/
theorem Reserve_decrements_or_insufficient_witness :
    Product.Reserve ⟨1, "w", 5⟩ 3 = Except.ok ⟨1, "w", wrap64 (5 - 3)⟩ ∧
    Product.Reserve ⟨1, "w", 5⟩ 3 = Except.ok ⟨1, "w", 5 - 3⟩ ∧
    Product.Reserve ⟨1, "w", 5⟩ 9 = Except.error "insufficient stock" :=
  ⟨(Reserve_decrements_or_insufficient ⟨1, "w", 5⟩ 3).1 (by decide),
   (Reserve_decrements_or_insufficient ⟨1, "w", 5⟩ 3).2.1 (by decide) (by decide),
   (Reserve_decrements_or_insufficient ⟨1, "w", 5⟩ 9).2.2 (by decide)⟩

/-- Counterexample to C7 as stated: with stock 1 and quantity
`-2 ^ 63` (both valid `int64` values), the guard passes
(`1 < -2 ^ 63` is false), `Reserve` succeeds, and the wrapping
subtraction leaves the stock at `-2 ^ 63 + 1 < 0`. -/
theorem stock_goes_negative_cex :
    (0 : Int) ≤ (⟨1, "w", 1⟩ : Product).stock ∧
    stockAfterReserve ⟨1, "w", 1⟩ (-(2 ^ 63)) = -(2 ^ 63) + 1 ∧
    stockAfterReserve ⟨1, "w", 1⟩ (-(2 ^ 63)) < 0 :=
  ⟨by decide, by decide, by decide⟩

/-- C7 (amended): a non-negative stock stays non-negative through
`Reserve`, whether it succeeds or fails, provided the 64-bit
subtraction does not overflow (`stock - quantity < 2 ^ 63`);
consequently, whenever the product repository only holds products with
non-negative stock small enough not to overflow against the command's
quantity, every product value the workflow passes to `UpdateStock` has
non-negative stock. -/
theorem stock_never_negative :
    (∀ (p : Product) (q : Int), 0 ≤ p.stock → p.stock - q < 2 ^ 63 →
      0 ≤ stockAfterReserve p q) ∧
    (∀ (env : Env) (cmd : PlaceOrderCommand),
      (∀ i p, env.getProduct i = Except.ok p →
        0 ≤ p.stock ∧ p.stock - cmd.quantity < 2 ^ 63) →
      ∀ p2, Effect.updateStockCall p2 ∈ (Handle env cmd).2 → 0 ≤ p2.stock) := by
  have key : ∀ (p : Product) (q : Int), 0 ≤ p.stock → p.stock - q < 2 ^ 63 →
      0 ≤ stockAfterReserve p q := by
    intro p q h hnof
    unfold stockAfterReserve
    by_cases hlt : p.stock < q
    · rw [reserve_error_of_lt hlt]
      exact h
    · rw [reserve_ok_exact (not_lt.mp hlt) hnof]
      show 0 ≤ p.stock - q
      omega
  refine ⟨key, ?_⟩
  intro env cmd hpos p2 hmem
  obtain ⟨p, hgp, hr⟩ := updateStock_in_trace env cmd p2 hmem
  obtain ⟨h0, hnof⟩ := hpos _ _ hgp
  have hkey := key p cmd.quantity h0 hnof
  unfold stockAfterReserve at hkey
  rw [hr] at hkey
  exact hkey

/-- Witness for C7 at a concrete product and a concrete environment. -/
theorem stock_never_negative_witness :
    0 ≤ stockAfterReserve ⟨1, "w", 5⟩ 2 ∧
    0 ≤ (⟨1, "w", wrap64 (5 - 2)⟩ : Product).stock :=
  ⟨stock_never_negative.1 ⟨1, "w", 5⟩ 2 (by decide) (by decide),
   stock_never_negative.2
     { getUser := fun _ => Except.ok ⟨7, true, "a@b"⟩
       getProduct := fun _ => Except.ok ⟨1, "w", 5⟩
       updateStock := fun _ => Except.ok ()
       saveOrder := fun _ => Except.ok () }
     ⟨7, 1, 2⟩
     (by intro i p hp; simp at hp; rw [← hp]; exact ⟨by decide, by decide⟩)
     ⟨1, "w", wrap64 (5 - 2)⟩
     (by decide)⟩

/-- C9: `Confirm` is idempotent: on an already-CONFIRMED order it is an
observational no-op (the order is unchanged), and any positive number of
consecutive `Confirm` calls equals a single call. -/
theorem Confirm_idempotent :
    (∀ o : Order, Order.Confirm (Order.Confirm o) = Order.Confirm o) ∧
    (∀ o : Order, o.status = "CONFIRMED" → Order.Confirm o = o) ∧
    (∀ (o : Order) (n : Nat), confirmN (n + 1) o = Order.Confirm o) := by
  refine ⟨confirm_confirm, confirm_of_confirmed, ?_⟩
  intro o n
  induction n with
  | zero => rfl
  | succ m ih =>
    show Order.Confirm (confirmN (m + 1) o) = Order.Confirm o
    rw [ih]
    exact confirm_confirm o

/-- Witness for C9 at a concrete already-confirmed order. -/
theorem Confirm_idempotent_witness :
    Order.Confirm (Order.Confirm (NewOrder 1 2 3)) = Order.Confirm (NewOrder 1 2 3) ∧
    confirmN 4 (NewOrder 1 2 3) = Order.Confirm (NewOrder 1 2 3) :=
  ⟨Confirm_idempotent.2.1 (Order.Confirm (NewOrder 1 2 3)) rfl,
   Confirm_idempotent.2.2 (NewOrder 1 2 3) 3⟩

/-- Counterexample to C1 as stated: user 7 and product 1 exist with
matching IDs, the stock `2 ^ 63 - 1` covers the quantity `-1`, and the
writes succeed, yet the persisted stock is the wrapped value `-2 ^ 63`,
not stock − quantity. -/
theorem Handle_success_exact_stock_cex :
    (Handle envOverflowW ⟨7, 1, -1⟩).1 = Except.ok () ∧
    updatedProducts (Handle envOverflowW ⟨7, 1, -1⟩).2 = [⟨1, "big", -(2 ^ 63)⟩] ∧
    updatedProducts (Handle envOverflowW ⟨7, 1, -1⟩).2 ≠
      [⟨1, "big", (2 ^ 63 - 1) - (-1)⟩] :=
  ⟨rfl, by decide, by decide⟩

/-- C1 (amended): when the user and the product exist (the repositories
answer the looked-up IDs with entities carrying those IDs), the stock
covers the quantity, the 64-bit subtraction does not overflow
(`stock - quantity < 2 ^ 63`), and the write collaborators succeed,
`Handle` returns no error, exactly one product value with stock
`original - quantity` is passed to `UpdateStock`, and exactly one
CONFIRMED order with the command's `userID`, `productID` and
`quantity` is passed to `Save`. -/
theorem Handle_success_path (env : Env) (cmd : PlaceOrderCommand) (u : User) (p : Product)
    (hu : env.getUser cmd.userID = Except.ok u)
    (huid : u.id = cmd.userID)
    (hp : env.getProduct cmd.productID = Except.ok p)
    (hpid : p.id = cmd.productID)
    (hstock : cmd.quantity ≤ p.stock)
    (hnof : p.stock - cmd.quantity < 2 ^ 63)
    (hus : ∀ q, env.updateStock q = Except.ok ())
    (hso : ∀ o, env.saveOrder o = Except.ok ()) :
    (Handle env cmd).1 = Except.ok () ∧
    updatedProducts (Handle env cmd).2 = [{ p with stock := p.stock - cmd.quantity }] ∧
    savedOrders (Handle env cmd).2 =
      [Order.Confirm (NewOrder cmd.userID cmd.productID cmd.quantity)] ∧
    (Order.Confirm (NewOrder cmd.userID cmd.productID cmd.quantity)).status = "CONFIRMED" := by
  have hr := reserve_ok_exact hstock hnof
  have hrun : Handle env cmd =
      (Except.ok (),
       [Effect.getUserCall cmd.userID, Effect.getProductCall cmd.productID,
        Effect.updateStockCall { p with stock := p.stock - cmd.quantity },
        Effect.saveOrderCall (Order.Confirm (NewOrder u.id p.id cmd.quantity))]) := by
    unfold Handle
    simp only [hu, hp, hr, hus, hso]
  rw [hrun]
  refine ⟨rfl, ?_, ?_, rfl⟩
  · simp [updatedProducts]
  · simp [savedOrders, huid, hpid]

/-- Witness for C1: the concrete environment `envW`, ordering 3 units of
product 1 (stock 5) for user 7. -/
theorem Handle_success_path_witness :
    (Handle envW ⟨7, 1, 3⟩).1 = Except.ok () ∧
    updatedProducts (Handle envW ⟨7, 1, 3⟩).2 = [⟨1, "widget", 5 - 3⟩] ∧
    savedOrders (Handle envW ⟨7, 1, 3⟩).2 = [Order.Confirm (NewOrder 7 1 3)] ∧
    (Order.Confirm (NewOrder 7 1 3)).status = "CONFIRMED" :=
  Handle_success_path envW ⟨7, 1, 3⟩ ⟨7, true, "u@x"⟩ ⟨1, "widget", 5⟩
    rfl rfl rfl rfl (by decide) (by decide) (fun _ => rfl) (fun _ => rfl)

/-- C2: when the user and the product exist but the quantity exceeds the
stock, `Handle` returns the "insufficient stock" error verbatim, the
trace stops after the two lookups (so no `UpdateStock` and no `Save`
call occurs), and `Reserve` itself fails without producing a modified
product. -/
theorem Handle_insufficient_stock (env : Env) (cmd : PlaceOrderCommand) (u : User) (p : Product)
    (hu : env.getUser cmd.userID = Except.ok u)
    (hp : env.getProduct cmd.productID = Except.ok p)
    (hq : p.stock < cmd.quantity) :
    Handle env cmd =
      (Except.error "insufficient stock",
       [Effect.getUserCall cmd.userID, Effect.getProductCall cmd.productID]) ∧
    updatedProducts (Handle env cmd).2 = [] ∧
    savedOrders (Handle env cmd).2 = [] ∧
    p.Reserve cmd.quantity = Except.error "insufficient stock" := by
  have hr := reserve_error_of_lt hq
  have hrun : Handle env cmd =
      (Except.error "insufficient stock",
       [Effect.getUserCall cmd.userID, Effect.getProductCall cmd.productID]) := by
    unfold Handle
    simp only [hu, hp, hr]
  rw [hrun]
  exact ⟨rfl, by simp [updatedProducts], by simp [savedOrders], hr⟩

/-- Witness for C2: ordering 9 units of product 1, which only has 5. -/
theorem Handle_insufficient_stock_witness :
    Handle envW ⟨7, 1, 9⟩ =
      (Except.error "insufficient stock",
       [Effect.getUserCall 7, Effect.getProductCall 1]) ∧
    updatedProducts (Handle envW ⟨7, 1, 9⟩).2 = [] ∧
    savedOrders (Handle envW ⟨7, 1, 9⟩).2 = [] ∧
    Product.Reserve ⟨1, "widget", 5⟩ 9 = Except.error "insufficient stock" :=
  Handle_insufficient_stock envW ⟨7, 1, 9⟩ ⟨7, true, "u@x"⟩ ⟨1, "widget", 5⟩
    rfl rfl (by decide)

/-- C4: when the user lookup fails with any error, `Handle` returns the
"user not found" error and the trace contains only that single lookup:
no product lookup, no `UpdateStock` and no `Save` happen. -/
theorem Handle_user_not_found (env : Env) (cmd : PlaceOrderCommand) (e : String)
    (he : env.getUser cmd.userID = Except.error e) :
    Handle env cmd = (Except.error "user not found", [Effect.getUserCall cmd.userID]) := by
  unfold Handle
  simp only [he]

/-- Witness for C4: user 99 does not exist in `envW`. -/
theorem Handle_user_not_found_witness :
    Handle envW ⟨99, 1, 3⟩ = (Except.error "user not found", [Effect.getUserCall 99]) :=
  Handle_user_not_found envW ⟨99, 1, 3⟩ "record not found" rfl

/-- Counterexample to C5 as stated: with stock `2 ^ 63 - 1` and
quantity `-1`, `UpdateStock` succeeds and `Save` fails, but the product
passed to `UpdateStock` carries the wrapped stock `-2 ^ 63`, not the
exact difference stock − quantity. -/
theorem Handle_save_failure_exact_stock_cex :
    (Handle envOverflowSaveFailW ⟨7, 1, -1⟩).1 = Except.error "db down" ∧
    updatedProducts (Handle envOverflowSaveFailW ⟨7, 1, -1⟩).2 = [⟨1, "big", -(2 ^ 63)⟩] ∧
    updatedProducts (Handle envOverflowSaveFailW ⟨7, 1, -1⟩).2 ≠
      [⟨1, "big", (2 ^ 63 - 1) - (-1)⟩] :=
  ⟨rfl, by decide, by decide⟩

/-- C5 (amended): when the stock check passes, the 64-bit subtraction
does not overflow (`stock - quantity < 2 ^ 63`), and `UpdateStock`
succeeds but the order repository's `Save` fails, `Handle` returns that
persistence error unchanged, and the trace shows exactly one
`UpdateStock` call with the decremented stock and no further call after
the failed `Save`: the stock write stands, with no compensating
`UpdateStock`. -/
theorem Handle_save_failure_keeps_stock (env : Env) (cmd : PlaceOrderCommand)
    (u : User) (p : Product) (e : String)
    (hu : env.getUser cmd.userID = Except.ok u)
    (hp : env.getProduct cmd.productID = Except.ok p)
    (hstock : cmd.quantity ≤ p.stock)
    (hnof : p.stock - cmd.quantity < 2 ^ 63)
    (hus : env.updateStock { p with stock := p.stock - cmd.quantity } = Except.ok ())
    (hso : env.saveOrder (Order.Confirm (NewOrder u.id p.id cmd.quantity)) = Except.error e) :
    Handle env cmd =
      (Except.error e,
       [Effect.getUserCall cmd.userID, Effect.getProductCall cmd.productID,
        Effect.updateStockCall { p with stock := p.stock - cmd.quantity },
        Effect.saveOrderCall (Order.Confirm (NewOrder u.id p.id cmd.quantity))]) ∧
    updatedProducts (Handle env cmd).2 = [{ p with stock := p.stock - cmd.quantity }] := by
  have hr := reserve_ok_exact hstock hnof
  have hrun : Handle env cmd =
      (Except.error e,
       [Effect.getUserCall cmd.userID, Effect.getProductCall cmd.productID,
        Effect.updateStockCall { p with stock := p.stock - cmd.quantity },
        Effect.saveOrderCall (Order.Confirm (NewOrder u.id p.id cmd.quantity))]) := by
    unfold Handle
    simp only [hu, hp, hr, hus, hso]
  rw [hrun]
  exact ⟨rfl, by simp [updatedProducts]⟩

/-- Witness for C5: `envSaveFailW`, whose `Save` fails with "db down". -/
theorem Handle_save_failure_keeps_stock_witness :
    Handle envSaveFailW ⟨7, 1, 3⟩ =
      (Except.error "db down",
       [Effect.getUserCall 7, Effect.getProductCall 1,
        Effect.updateStockCall ⟨1, "widget", 5 - 3⟩,
        Effect.saveOrderCall (Order.Confirm (NewOrder 7 1 3))]) ∧
    updatedProducts (Handle envSaveFailW ⟨7, 1, 3⟩).2 = [⟨1, "widget", 5 - 3⟩] :=
  Handle_save_failure_keeps_stock envSaveFailW ⟨7, 1, 3⟩ ⟨7, true, "u@x"⟩ ⟨1, "widget", 5⟩
    "db down" rfl rfl (by decide) (by decide) rfl rfl

/-- C6: `NewOrder` starts PENDING with zero identity, `Confirm` moves to
CONFIRMED and is the identity on an already-CONFIRMED order (so the
status never goes backward), and every order `Handle` passes to `Save`
is CONFIRMED, never PENDING. -/
theorem order_lifecycle_invariant :
    (∀ (uid pid q : Int), (NewOrder uid pid q).status = "PENDING" ∧ (NewOrder uid pid q).id = 0) ∧
    (∀ o : Order, (Order.Confirm o).status = "CONFIRMED") ∧
    (∀ o : Order, o.status = "CONFIRMED" → Order.Confirm o = o) ∧
    (∀ (env : Env) (cmd : PlaceOrderCommand) (o : Order),
      o ∈ savedOrders (Handle env cmd).2 →
      o.status = "CONFIRMED" ∧ o.status ≠ "PENDING") := by
  refine ⟨fun uid pid q => ⟨rfl, rfl⟩, fun o => rfl, confirm_of_confirmed, ?_⟩
  intro env cmd o ho
  obtain ⟨u, p, hgu, hgp, rfl⟩ := saveOrder_in_trace env cmd o (mem_savedOrders.mp ho)
  refine ⟨rfl, ?_⟩
  intro hcontra
  simp [Order.Confirm] at hcontra

/-- Witness for C6: the concrete saved order of `envW` is CONFIRMED. -/
theorem order_lifecycle_invariant_witness :
    (NewOrder 1 2 3).status = "PENDING" ∧
    (Order.Confirm (NewOrder 1 2 3)).status = "CONFIRMED" ∧
    Order.Confirm (Order.Confirm (NewOrder 1 2 3)) = Order.Confirm (NewOrder 1 2 3) ∧
    ((Order.Confirm (NewOrder 7 1 3)).status = "CONFIRMED" ∧
     (Order.Confirm (NewOrder 7 1 3)).status ≠ "PENDING") :=
  ⟨(order_lifecycle_invariant.1 1 2 3).1,
   order_lifecycle_invariant.2.1 (NewOrder 1 2 3),
   order_lifecycle_invariant.2.2.1 (Order.Confirm (NewOrder 1 2 3)) rfl,
   order_lifecycle_invariant.2.2.2 envW ⟨7, 1, 3⟩ (Order.Confirm (NewOrder 7 1 3))
     (by decide)⟩

/-- Counterexample to C8 as stated: with stock `2 ^ 63 - 1` and the
strictly negative quantity `-1`, the subtraction wraps, so the
persisted stock `-2 ^ 63` is smaller, not larger, than the original
stock: the claimed increase by the absolute quantity fails. -/
theorem Handle_negative_quantity_increase_cex :
    (Handle envOverflowW ⟨7, 1, -1⟩).1 = Except.ok () ∧
    stockAfterReserve ⟨1, "big", 2 ^ 63 - 1⟩ (-1) = -(2 ^ 63) ∧
    ¬ ((2 ^ 63 - 1 : Int) < -(2 ^ 63)) :=
  ⟨rfl, by decide, by decide⟩

/-- C8 (amended): `Handle` never rejects a zero or negative quantity:
with an existing user and product of non-negative stock,
`quantity <= 0`, and no 64-bit overflow of the subtraction
(`stock - quantity < 2 ^ 63`), the stock check passes, `Handle`
succeeds, the product passed to `UpdateStock` carries stock
`original - quantity` (strictly larger than the original when the
quantity is strictly negative), and a CONFIRMED order with that
quantity is passed to `Save`. -/
theorem Handle_accepts_nonpositive_quantity (env : Env) (cmd : PlaceOrderCommand)
    (u : User) (p : Product)
    (hu : env.getUser cmd.userID = Except.ok u)
    (hp : env.getProduct cmd.productID = Except.ok p)
    (hstock0 : 0 ≤ p.stock)
    (hq : cmd.quantity ≤ 0)
    (hnof : p.stock - cmd.quantity < 2 ^ 63)
    (hus : ∀ q, env.updateStock q = Except.ok ())
    (hso : ∀ o, env.saveOrder o = Except.ok ()) :
    p.Reserve cmd.quantity = Except.ok { p with stock := p.stock - cmd.quantity } ∧
    (Handle env cmd).1 = Except.ok () ∧
    updatedProducts (Handle env cmd).2 = [{ p with stock := p.stock - cmd.quantity }] ∧
    (cmd.quantity < 0 → p.stock < p.stock - cmd.quantity) ∧
    savedOrders (Handle env cmd).2 = [Order.Confirm (NewOrder u.id p.id cmd.quantity)] ∧
    (Order.Confirm (NewOrder u.id p.id cmd.quantity)).status = "CONFIRMED" ∧
    (Order.Confirm (NewOrder u.id p.id cmd.quantity)).quantity = cmd.quantity := by
  have hstock : cmd.quantity ≤ p.stock := hq.trans hstock0
  have hr := reserve_ok_exact hstock hnof
  have hrun : Handle env cmd =
      (Except.ok (),
       [Effect.getUserCall cmd.userID, Effect.getProductCall cmd.productID,
        Effect.updateStockCall { p with stock := p.stock - cmd.quantity },
        Effect.saveOrderCall (Order.Confirm (NewOrder u.id p.id cmd.quantity))]) := by
    unfold Handle
    simp only [hu, hp, hr, hus, hso]
  rw [hrun]
  refine ⟨hr, rfl, by simp [updatedProducts], ?_, by simp [savedOrders], rfl, rfl⟩
  intro hneg
  omega

/-- Witness for C8: ordering quantity -2 of product 1 (stock 5) raises
the persisted stock to 7. -/
theorem Handle_accepts_nonpositive_quantity_witness :
    Product.Reserve ⟨1, "widget", 5⟩ (-2) = Except.ok ⟨1, "widget", 5 - (-2)⟩ ∧
    (Handle envW ⟨7, 1, -2⟩).1 = Except.ok () ∧
    updatedProducts (Handle envW ⟨7, 1, -2⟩).2 = [⟨1, "widget", 5 - (-2)⟩] ∧
    ((-2 : Int) < 0 → (5 : Int) < 5 - (-2)) ∧
    savedOrders (Handle envW ⟨7, 1, -2⟩).2 = [Order.Confirm (NewOrder 7 1 (-2))] ∧
    (Order.Confirm (NewOrder 7 1 (-2))).status = "CONFIRMED" ∧
    (Order.Confirm (NewOrder 7 1 (-2))).quantity = -2 :=
  Handle_accepts_nonpositive_quantity envW ⟨7, 1, -2⟩ ⟨7, true, "u@x"⟩ ⟨1, "widget", 5⟩
    rfl rfl (by decide) (by decide) (by decide) (fun _ => rfl) (fun _ => rfl)

/-- Flip the `Active` flag of every user the user repository returns. -/
def setActive (b : Bool) (u : User) : User :=
  { u with active := b }

/-- The same environment, with every fetched user's `Active` set to `b`. -/
def envSetActive (env : Env) (b : Bool) : Env :=
  { env with getUser := fun i => (env.getUser i).map (setActive b) }

/-- C10: `Handle` never reads the user's `Active` flag: its entire
outcome (returned error and full collaborator-call trace, hence stock
written and order saved) is unchanged when every fetched user's
`Active` field is overwritten with an arbitrary value, so an inactive
user places orders exactly like an active one. -/
theorem Handle_ignores_active_flag (env : Env) (cmd : PlaceOrderCommand) (b : Bool) :
    Handle (envSetActive env b) cmd = Handle env cmd := by
  unfold Handle envSetActive
  cases hgu : env.getUser cmd.userID with
  | error e => simp [hgu, Except.map]
  | ok u => simp [hgu, Except.map, setActive]

end AiioBackend
